import Mathlib

set_option maxHeartbeats 1000000
set_option maxRecDepth 40000
set_option allowUnsafeReducibility true
attribute [local semireducible] Rat.mul Rat.inv Rat.add Rat.sub Rat.ofScientific

/-!
Shallow embedding of the BRAS utilization dashboard pipeline (app.py):
numeric and date normalization, the BRAS and AAA loaders, the reconciler
(combine_data), KPI extraction and chart-series construction.  File
discovery, CSV/spreadsheet byte-level reading and the rendering layer are
external collaborators; the loaders are modelled from the parsed tabular
input onward, with each source row carrying the columns the code reads.
-/

/-- Splits a character list on a separator character, mirroring Python
str.split with a one-character separator. -/
def splitOnChar (c : Char) : List Char → List (List Char)
  | [] => [[]]
  | x :: xs =>
    let r := splitOnChar c xs
    if x = c then [] :: r
    else
      match r with
      | [] => [[x]]
      | h :: t => (x :: h) :: t

/-- First separator-delimited segment of a string (Python s.split(c)[0]). -/
def firstSeg (c : Char) (s : String) : String :=
  String.mk ((splitOnChar c s.data).headD [])

/-- Numeric value of a digit list, most significant digit first. -/
def natOfDigits (l : List Char) : Nat :=
  l.foldl (fun n c => n * 10 + (c.toNat - 48)) 0

/-- Bool test: p is a prefix of s, computed over the character lists. -/
def strStartsWith (s p : String) : Bool := p.data.isPrefixOf s.data

/-- Bool test: t is a suffix of s (Python str.endswith). -/
def strEndsWith (s t : String) : Bool := t.data.reverse.isPrefixOf s.data.reverse

/-- Bool test: n occurs as a contiguous substring of h (Python in operator). -/
def listContains (h n : List Char) : Bool :=
  match h with
  | [] => n.isPrefixOf ([] : List Char)
  | c :: t => n.isPrefixOf (c :: t) || listContains t n

/-- Calendar date; the year is signed, months and days are 1-based. -/
structure Date where
  year : Int
  month : Nat
  day : Nat
deriving DecidableEq, Repr

/-- Chronological order on dates: lexicographic on year, month, day. -/
def Date.leb (a b : Date) : Bool :=
  decide (a.year < b.year ∨ (a.year = b.year ∧
    (a.month < b.month ∨ (a.month = b.month ∧ a.day ≤ b.day))))

/-- English month abbreviation as produced by strftime %b. -/
def monthAbbrev : Nat → String
  | 1 => "Jan" | 2 => "Feb" | 3 => "Mar" | 4 => "Apr" | 5 => "May" | 6 => "Jun"
  | 7 => "Jul" | 8 => "Aug" | 9 => "Sep" | 10 => "Oct" | 11 => "Nov" | 12 => "Dec"
  | _ => ""

/-- Month label in the strftime format "%b %Y", for example "Apr 2025". -/
def monthLabel (d : Date) : String := monthAbbrev d.month ++ " " ++ toString d.year

/-- Proleptic Gregorian civil date from a day count relative to 1970-01-01
(the standard era/day-of-era conversion; all inner divisions act on
nonnegative values, the era uses floor division). -/
def civilFromDays (z : Int) : Date :=
  let zz := z + 719468
  let era := Int.fdiv zz 146097
  let doe := zz - era * 146097
  let yoe := (doe - doe / 1460 + doe / 36524 - doe / 146096) / 365
  let y := yoe + era * 400
  let doy := doe - (365 * yoe + yoe / 4 - yoe / 100)
  let mp := (5 * doy + 2) / 153
  let d := doy - (153 * mp + 2) / 5 + 1
  let m := if mp < 10 then mp + 3 else mp - 9
  ⟨if m ≤ 2 then y + 1 else y, m.toNat, d.toNat⟩

/-- Gregorian leap-year test. -/
def isLeapYear (y : Int) : Bool := y % 4 == 0 && (y % 100 != 0 || y % 400 == 0)

/-- Number of days in a month of a given year. -/
def daysInMonth (y : Int) (m : Nat) : Nat :=
  if m = 2 then (if isLeapYear y then 29 else 28)
  else if m = 4 ∨ m = 6 ∨ m = 9 ∨ m = 11 then 30
  else 31

/-- Decimal parse of a Python float literal of the form [sign]digits[.digits];
models float()/astype(float) for the numeric strings this pipeline meets and
fails on everything else. -/
def parseFloatQ (s : String) : Option ℚ :=
  let cs := s.data
  let sgn : ℚ :=
    match cs with
    | c :: _ => if c = '-' then -1 else 1
    | [] => 1
  let cs2 :=
    match cs with
    | c :: t => if c = '-' ∨ c = '+' then t else cs
    | [] => []
  let ip := cs2.takeWhile Char.isDigit
  let rest := cs2.dropWhile Char.isDigit
  match rest with
  | [] => if ip = [] then none else some (sgn * (natOfDigits ip : ℚ))
  | c :: frac =>
    if c = '.' ∧ frac.all Char.isDigit ∧ (ip ≠ [] ∨ frac ≠ []) then
      some (sgn * ((natOfDigits ip : ℚ) + (natOfDigits frac : ℚ) / (10 : ℚ) ^ frac.length))
    else none

/-- Date parse of dash-separated all-digit strings like "2025-04-15"; models
the generic to_datetime string path for the date strings this repository's
sources use, rejecting other layouts as parse errors. -/
def parseIsoDate (s : String) : Option Date :=
  match splitOnChar '-' s.data with
  | [ys, ms, ds] =>
    if ys ≠ [] ∧ ms ≠ [] ∧ ds ≠ [] ∧
        ys.all Char.isDigit ∧ ms.all Char.isDigit ∧ ds.all Char.isDigit then
      let y : Int := (natOfDigits ys : Int)
      let m := natOfDigits ms
      let d := natOfDigits ds
      if 1 ≤ m ∧ m ≤ 12 ∧ 1 ≤ d ∧ d ≤ daysInMonth y m then some ⟨y, m, d⟩ else none
    else none
  | _ => none

/-- Month abbreviations; list position is month minus one. -/
def monthAbbrevs : List String :=
  ["Jan", "Feb", "Mar", "Apr", "May", "Jun", "Jul", "Aug", "Sep", "Oct", "Nov", "Dec"]

/-- strptime with format "%b-%y": abbreviated month name (case-insensitive),
a dash, and exactly two digits of year; 00-68 maps to 20xx and 69-99 to 19xx;
the day defaults to 1. -/
def parseMonYY (s : String) : Option Date :=
  match splitOnChar '-' s.data with
  | [mon, yy] =>
    match monthAbbrevs.findIdx? (fun a => a.data.map Char.toLower == mon.map Char.toLower) with
    | some i =>
      if yy.length = 2 ∧ yy.all Char.isDigit then
        let n := natOfDigits yy
        some ⟨if n ≤ 68 then (2000 + n : Int) else (1900 + n : Int), i + 1, 1⟩
      else none
    | none => none
  | _ => none

/-- Dynamic value reaching parse_date: a structured datetime or a cell string
(the AAA loader casts its column to str first, so there it is always a string). -/
inductive DateInput where
  | dt (d : Date)
  | s (str : String)
deriving DecidableEq

/-- parse_date from app.py: datetime passthrough, then Excel serial number via
to_datetime with unit days and origin 1899-12-30 (day -25569 of the 1970 epoch,
taking the floor of the fractional day count), then "%b-%y" text, then generic
date-string parsing; None when every attempt fails. -/
def parse_date : DateInput → Option Date
  | .dt d => some d
  | .s str =>
    match parseFloatQ str with
    | some q => some (civilFromDays (Rat.floor q - 25569))
    | none =>
      match parseMonYY str with
      | some d => some d
      | none => parseIsoDate str

/-- Literal replacement of "Aprl" by "Apr", scanning left to right as Python
str.replace does. -/
def replaceAprl : List Char → List Char
  | 'A' :: 'p' :: 'r' :: 'l' :: rest => 'A' :: 'p' :: 'r' :: replaceAprl rest
  | c :: rest => c :: replaceAprl rest
  | [] => []

/-- First occurrence of the regex pattern BRAS followed by one or more digits,
with the digit run taken greedily (re.search leftmost-longest at the match
position), as used by str.extract. -/
def extractBrasList : List Char → Option (List Char)
  | [] => none
  | c :: rest =>
    if c = 'B' then
      match rest with
      | 'R' :: 'A' :: 'S' :: r2 =>
        if r2.takeWhile Char.isDigit = [] then extractBrasList rest
        else some ('B' :: 'R' :: 'A' :: 'S' :: (r2.takeWhile Char.isDigit))
      | _ => extractBrasList rest
    else extractBrasList rest

/-- Raw BRAS CSV row, restricted to the columns the loader reads. -/
structure BrasRaw where
  neLocation : String
  moLocation : String
  maxSendRate : String
  endTime : String
deriving DecidableEq, Repr

/-- BRAS row after device-tag extraction, location-key derivation and the
100GE interface filter; a missing tag propagates as a missing location key. -/
structure PRow where
  loc : Option String
  rate : String
  endTime : String
deriving DecidableEq, Repr

/-- BRAS row after numeric and date conversion of the whole column. -/
structure QRow where
  loc : Option String
  rate : ℚ
  date : Date
deriving DecidableEq, Repr

/-- Aggregated BRAS monthly record. -/
structure BrasRow where
  month : Date
  monthName : String
  location : String
  rate : ℚ
  capacity : ℚ
  utilPct : ℚ
deriving DecidableEq, Repr

/-- Device-tag extraction, location-key derivation and the 100GE filter
(app.py lines 85-89): the key is first comma-delimited segment, underscore,
extracted tag, and rows whose interface field lacks the substring 100GE are
discarded. -/
def brasStage1 (input : List BrasRaw) : List PRow :=
  ((input.map fun r =>
      (r, (extractBrasList r.neLocation.data).map
            fun d => firstSeg ',' r.neLocation ++ "_" ++ String.mk d)).filter
    fun p => listContains p.1.moLocation.data ("100GE".data)).map
    fun p => ⟨p.2, p.1.maxSendRate, p.1.endTime⟩

/-- Column-wise conversion (astype(float) on the comma-stripped rate column,
to_datetime on End Time): any failing cell raises, so the whole stage yields
none on any failure, matching the loader's try/except granularity. -/
def brasParse : List PRow → Option (List QRow)
  | [] => some []
  | p :: t =>
    match brasParse t, parseFloatQ (String.mk (p.rate.data.filter fun c => ¬ c = ',')),
        parseIsoDate p.endTime with
    | some rest, some q, some d => some (⟨p.loc, q, d⟩ :: rest)
    | _, _, _ => none

/-- Truncation to the first of the month (Period M followed by to_timestamp). -/
def monthOf (d : Date) : Date := ⟨d.year, d.month, 1⟩

/-- groupby key order as a Bool comparator: month then location string, the
string compared lexicographically by code point. -/
def listLeChar : List Char → List Char → Bool
  | [], _ => true
  | _ :: _, [] => false
  | a :: as, b :: bs => if a = b then listLeChar as bs else decide (a < b)

/-- Group-key order used by the groupby step. -/
def keyLe (a b : Date × String) : Prop :=
  (if a.1 = b.1 then listLeChar a.2.data b.2.data else Date.leb a.1 b.1) = true

instance : DecidableRel keyLe := fun a b => Bool.decEq _ _

/-- Distinct (month, location) group keys of the groupby step, in key order;
rows whose location key is missing belong to no group. -/
def brasKeys (l : List QRow) : List (Date × String) :=
  List.insertionSort keyLe ((l.filterMap fun q => q.loc.map fun s => (monthOf q.date, s)).dedup)

/-- Rates of the rows of one (month, location) group. -/
def groupRates (l : List QRow) (k : Date × String) : List ℚ :=
  (l.filter fun q => decide (q.loc = some k.2 ∧ monthOf q.date = k.1)).map fun q => q.rate

/-- Maximum of a list of rates; only the empty list (which no group is)
falls back to 0. -/
def maxOfList : List ℚ → ℚ
  | [] => 0
  | x :: xs => xs.foldl max x

/-- groupby (Month, Location) with max aggregation of the peak rate, the fixed
100000 Mbps capacity, the derived utilization percentage and the month label
(app.py lines 99-120). -/
def brasAggregate (l : List QRow) : List BrasRow :=
  (brasKeys l).map fun k =>
    let m := maxOfList (groupRates l k)
    ⟨k.1, monthLabel k.1, k.2, m, 100000, m / 100000 * 100⟩

/-- load_bras_data from the parsed CSV onward: none models the Python None the
function falls through to when the 100GE filter leaves nothing, some [] models
the empty frame returned by the except-handler when a conversion raises, and
otherwise the monthly table is produced. -/
def load_bras_data (input : List BrasRaw) : Option (List BrasRow) :=
  let f := brasStage1 input
  if f = [] then none
  else
    match brasParse f with
    | none => some []
    | some q => some (brasAggregate q)

/-- Raw AAA sheet row, restricted to the columns the loader reads, with the
month/year cell already cast to str as the code does. -/
structure AaaRaw where
  monthYear : String
  aaaLocation : String
  userQuantity : String
deriving DecidableEq, Repr

/-- AAA monthly record; a user count that failed numeric coercion is missing
rather than zero at this stage. -/
structure AaaRow where
  month : Date
  monthName : String
  location : String
  users : Option ℚ
deriving DecidableEq, Repr

/-- Order on AAA rows by month, for the loader's sort_values. -/
def aaaLe (a b : AaaRow) : Prop := Date.leb a.month b.month = true

instance : DecidableRel aaaLe := fun a b => Bool.decEq _ _

/-- load_aaa_data from the parsed sheet onward: typo repair, flexible date
parsing with unparseable-month rows dropped, location key derivation as first
underscore-delimited segment plus _AAA, numeric coercion of the user count
(failures become missing, not errors), month label, and a sort by month. -/
def load_aaa_data (input : List AaaRaw) : List AaaRow :=
  List.insertionSort aaaLe
    (input.filterMap fun r =>
      match parse_date (DateInput.s (String.mk (replaceAprl r.monthYear.data))) with
      | none => none
      | some d =>
        some ⟨d, monthLabel d, firstSeg '_' r.aaaLocation ++ "_AAA", parseFloatQ r.userQuantity⟩)

/-- Unified Record row after the fillna step. -/
structure URow where
  month : Date
  monthName : String
  location : String
  rate : ℚ
  capacity : ℚ
  utilPct : ℚ
  users : ℚ
deriving DecidableEq, Repr

/-- Join key of a BRAS monthly row. -/
def bKey (b : BrasRow) : Date × String × String := (b.month, b.monthName, b.location)

/-- Join key of an AAA monthly row. -/
def aKey (a : AaaRow) : Date × String × String := (a.month, a.monthName, a.location)

/-- Join key of a Unified Record row. -/
def uKey (u : URow) : Date × String × String := (u.month, u.monthName, u.location)

/-- Rows the outer merge produces for one BRAS row: one per matching AAA row,
or a single row with the user count filled to 0 when nothing matches. -/
def mergeRowsFor (aaa : List AaaRow) (b : BrasRow) : List URow :=
  match aaa.filter (fun a => decide (aKey a = bKey b)) with
  | [] => [⟨b.month, b.monthName, b.location, b.rate, b.capacity, b.utilPct, 0⟩]
  | ms => ms.map fun a =>
      ⟨b.month, b.monthName, b.location, b.rate, b.capacity, b.utilPct, a.users.getD 0⟩

/-- Outer merge on (Month, Month_Name, Location) followed by the fillna step:
a missing peak rate or utilization becomes 0, a missing user count becomes 0,
a missing capacity becomes 100000.  Matched pairs produce one row per pair;
unmatched rows of either side survive with the fills. -/
def mergeFill (bras : List BrasRow) (aaa : List AaaRow) : List URow :=
  ((bras.map (mergeRowsFor aaa)).flatten)
    ++ ((aaa.filter fun a => bras.all fun b => decide (bKey b ≠ aKey a)).map
        fun a => ⟨a.month, a.monthName, a.location, 0, 100000, 0, a.users.getD 0⟩)

/-- Order on unified rows by month, for sort_values on the merged frame. -/
def rowLe (a b : URow) : Prop := Date.leb a.month b.month = true

instance : DecidableRel rowLe := fun a b => Bool.decEq _ _

/-- Which return statement of combine_data produced the result. -/
inductive CombinePath where
  | handler
  | emptyInput
  | merged
deriving DecidableEq, Repr

/-- Result of combine_data together with the control path that produced it. -/
structure CombineOut where
  rows : List URow
  path : CombinePath
deriving DecidableEq, Repr

/-- combine_data: a none BRAS argument models the Python None on which the
attribute access inside the try block raises and the except-handler returns an
empty frame; an empty frame on either side returns empty via the documented
early check; otherwise the outer merge runs, fills are applied and the result
is sorted by month. -/
def combine_data (brasq : Option (List BrasRow)) (aaa : List AaaRow) : CombineOut :=
  match brasq with
  | none => ⟨[], CombinePath.handler⟩
  | some bras =>
    if bras = [] ∨ aaa = [] then ⟨[], CombinePath.emptyInput⟩
    else ⟨List.insertionSort rowLe (mergeFill bras aaa), CombinePath.merged⟩

/-- idxmax: the first row (in frame order) attaining the maximum of the metric. -/
def firstArgmax (m : URow → ℚ) : URow → List URow → URow
  | r, [] => r
  | r, x :: xs => if m r < m x then firstArgmax m x xs else firstArgmax m r xs

/-- Sub-series of the rows of one location key, in frame order. -/
def subSeries (rows : List URow) (loc : String) : List URow :=
  rows.filter fun r => decide (r.location = loc)

/-- Peak KPI of one sub-series: the column maximum together with the month
label of the idxmax row; none when the sub-series is empty. -/
def kpiPeak (m : URow → ℚ) (rows : List URow) (loc : String) : Option (ℚ × String) :=
  match subSeries rows loc with
  | [] => none
  | r :: rs =>
    let b := firstArgmax m r rs
    some (m b, b.monthName)

/-- The three KPI tiles of main() for a region: BRAS01 and BRAS02 peak rates
(displayed in Gbps, divided by 1000) and AAA peak users, each with its month. -/
def mainKpis (combined : List URow) (region : String) :
    Option (ℚ × String) × Option (ℚ × String) × Option (ℚ × String) :=
  ((kpiPeak (fun r => r.rate) combined (region ++ "_BRAS01")).map fun p => (p.1 / 1000, p.2),
   (kpiPeak (fun r => r.rate) combined (region ++ "_BRAS02")).map fun p => (p.1 / 1000, p.2),
   kpiPeak (fun r => r.users) combined (region ++ "_AAA"))

/-- One plotted series: a label and (month label, value) points in month order. -/
structure ChartSeries where
  label : String
  points : List (String × ℚ)
deriving DecidableEq, Repr

/-- Rows of one device slot within the selected region, sorted by month. -/
def slotRows (data : List URow) (region device : String) : List URow :=
  List.insertionSort rowLe
    ((data.filter fun r => strStartsWith r.location region).filter
      fun r => decide (r.location = device))

/-- One BRAS utilization line: the 10x multiplier and the label disclosure
apply exactly when the selected region is MDY and the device string ends in
BRAS02 (app.py lines 240-242); an empty slot produces no series. -/
def deviceSeries (data : List URow) (region device : String) : Option ChartSeries :=
  if slotRows data region device = [] then none
  else
    some ⟨device ++ " Utilization" ++
        (if decide (region = "MDY") && strEndsWith device ("BRAS02") then " (×10)" else ""),
      (slotRows data region device).map fun r =>
        (r.monthName, r.utilPct *
          (if decide (region = "MDY") && strEndsWith device ("BRAS02") then 10 else 1))⟩

/-- Chart specification: the BRAS utilization lines and the AAA users bars. -/
structure ChartSpec where
  lines : List ChartSeries
  bars : Option ChartSeries
deriving DecidableEq, Repr

/-- create_combined_chart: the two BRAS device lines (slots 01 and 02, in that
order, absent slots omitted) and the AAA users bar series for the region. -/
def create_combined_chart (data : List URow) (region : String) : ChartSpec :=
  let ad := List.insertionSort rowLe
    ((data.filter fun r => strStartsWith r.location region).filter
      fun r => decide (r.location = region ++ "_AAA"))
  ⟨[deviceSeries data region (region ++ "_BRAS01"),
    deviceSeries data region (region ++ "_BRAS02")].filterMap id,
   if ad = [] then none
   else some ⟨region ++ "_AAA Users", ad.map fun r => (r.monthName, r.users)⟩⟩

/-! Order properties of the month comparison, used by the sort reasoning. -/

theorem dateLeb_refl (a : Date) : Date.leb a a = true := by
  simp [Date.leb]

theorem dateLeb_total (a b : Date) : Date.leb a b = true ∨ Date.leb b a = true := by
  simp only [Date.leb, decide_eq_true_eq]
  omega

theorem dateLeb_trans {a b c : Date} (h1 : Date.leb a b = true) (h2 : Date.leb b c = true) :
    Date.leb a c = true := by
  simp only [Date.leb, decide_eq_true_eq] at h1 h2 ⊢
  omega

instance : IsTotal URow rowLe := ⟨fun a b => dateLeb_total a.month b.month⟩

instance : IsTrans URow rowLe := ⟨fun _ _ _ => dateLeb_trans⟩

/-- Scenario BRAS source row of the end-to-end example in the specification. -/
def scenarioBras : List BrasRaw :=
  [⟨"Mandalay, BRAS01", "100GE1/0/1", "45,000", "2025-04-15"⟩]

/-- Scenario AAA source row of the end-to-end example in the specification. -/
def scenarioAaa : List AaaRaw :=
  [⟨"Apr-25", "MDY_Region", "12000"⟩]

/-- C1 fails on the code: on the end-to-end scenario input the BRAS-derived
Unified Record row has location key Mandalay_BRAS01, the raw first
comma-delimited segment of the location field, and no row has key MDY_BRAS01. -/
theorem c1_counterexample :
    ((combine_data (load_bras_data scenarioBras) (load_aaa_data scenarioAaa)).rows.map
        fun u => u.location) = [("Mandalay_BRAS01"), ("MDY_AAA")] ∧
    ∀ u ∈ (combine_data (load_bras_data scenarioBras) (load_aaa_data scenarioAaa)).rows,
      u.location ≠ ("MDY_BRAS01") := by
  decide

/-- C1 amended: on the scenario input the BRAS loader followed by the
reconciler produces exactly one BRAS-derived row, with location key
Mandalay_BRAS01 (first comma-delimited segment plus device tag), month
2025-04-01, peak rate 45000, capacity 100000, utilization 45, and one
AAA-derived row with key MDY_AAA and 12000 users. -/
theorem c1_amended :
    (combine_data (load_bras_data scenarioBras) (load_aaa_data scenarioAaa)).rows =
      [⟨⟨2025, 4, 1⟩, "Apr 2025", "Mandalay_BRAS01", 45000, 100000, 45, 0⟩,
       ⟨⟨2025, 4, 1⟩, "Apr 2025", "MDY_AAA", 0, 100000, 0, 12000⟩] := by
  decide

/-- C2 fails on the code as instantiated: spreadsheet serial number 45747
denotes 1899-12-30 plus 45747 days, which is 2025-03-31, so parsing it yields
month label "Mar 2025", not "Apr 2025". -/
theorem c2_counterexample :
    parse_date (DateInput.s ("45747")) = some ⟨2025, 3, 31⟩ ∧
    (parse_date (DateInput.s ("45747"))).map monthLabel = some ("Mar 2025") ∧
    ("Mar 2025" : String) ≠ ("Apr 2025") := by
  decide

/-- C2 amended: the four date-encoding forms denoting April 2025 - a
structured datetime, serial number 45748 (not 45747), the text "Apr-25" and
the ISO string "2025-04-01" - all parse to a date in calendar month April
2025 and all yield the month label "Apr 2025". -/
theorem c2_amended :
    parse_date (DateInput.dt ⟨2025, 4, 10⟩) = some ⟨2025, 4, 10⟩ ∧
    parse_date (DateInput.s ("45748")) = some ⟨2025, 4, 1⟩ ∧
    parse_date (DateInput.s ("Apr-25")) = some ⟨2025, 4, 1⟩ ∧
    parse_date (DateInput.s ("2025-04-01")) = some ⟨2025, 4, 1⟩ ∧
    monthLabel ⟨2025, 4, 10⟩ = ("Apr 2025") ∧
    monthLabel ⟨2025, 4, 1⟩ = ("Apr 2025") := by
  decide

/-- C7: the reconciler returns an empty Unified Record whenever either input
frame is empty, including the case where every AAA source row has an
unparseable month and the AAA loader therefore yields zero valid rows. -/
theorem c7_empty_inputs (brasq : Option (List BrasRow)) (aaa : List AaaRow)
    (araw : List AaaRaw) :
    ((brasq = some [] ∨ aaa = []) → (combine_data brasq aaa).rows = []) ∧
    ((∀ r ∈ araw,
        parse_date (DateInput.s (String.mk (replaceAprl r.monthYear.data))) = none) →
      load_aaa_data araw = [] ∧ (combine_data brasq (load_aaa_data araw)).rows = []) := by
  constructor
  · intro h
    rcases h with h | h
    · subst h; simp [combine_data]
    · subst h
      cases brasq with
      | none => rfl
      | some bras => simp [combine_data]
  · intro h
    have hnil : load_aaa_data araw = [] := by
      unfold load_aaa_data
      have : (araw.filterMap fun r =>
          match parse_date (DateInput.s (String.mk (replaceAprl r.monthYear.data))) with
          | none => none
          | some d => some (⟨d, monthLabel d,
              firstSeg '_' r.aaaLocation ++ "_AAA", parseFloatQ r.userQuantity⟩ : AaaRow)) = [] := by
        rw [List.filterMap_eq_nil_iff]
        intro r hr
        rw [h r hr]
      rw [this]
      rfl
    refine ⟨hnil, ?_⟩
    rw [hnil]
    cases brasq with
    | none => rfl
    | some bras => simp [combine_data]

/-- Witness for C7 at concrete inputs. -/
theorem c7_empty_inputs_witness :
    (combine_data (some []) ([] : List AaaRow)).rows = [] ∧
    load_aaa_data [⟨"garbage", "MDY_Region", "5"⟩] = [] := by
  refine ⟨(c7_empty_inputs (some []) [] []).1 (Or.inl rfl), ?_⟩
  exact ((c7_empty_inputs none [] [⟨"garbage", "MDY_Region", "5"⟩]).2 (by decide)).1

/-- C9: when the BRAS source parses but no row's interface field contains
100GE, the loader returns none (the Python None it falls through to) rather
than an empty table, and the reconciler handles that value in its exception
handler, not in the documented empty-input early return. -/
theorem c9_filter_empty_none (input : List BrasRaw) (aaa : List AaaRow)
    (h : ∀ r ∈ input, listContains r.moLocation.data ("100GE".data) = false) :
    load_bras_data input = none ∧
    combine_data (load_bras_data input) aaa = ⟨[], CombinePath.handler⟩ ∧
    (combine_data (load_bras_data input) aaa).path ≠ CombinePath.emptyInput := by
  have hstage : brasStage1 input = [] := by
    unfold brasStage1
    have : ((input.map fun r =>
        (r, (extractBrasList r.neLocation.data).map
              fun d => firstSeg ',' r.neLocation ++ "_" ++ String.mk d)).filter
      fun p => listContains p.1.moLocation.data ("100GE".data)) = [] := by
      rw [List.filter_eq_nil_iff]
      intro p hp
      rcases List.mem_map.mp hp with ⟨r, hr, hpr⟩
      subst hpr
      simp [h r hr]
    rw [this]
    rfl
  have hload : load_bras_data input = none := by
    unfold load_bras_data
    rw [hstage]
    rfl
  rw [hload]
  exact ⟨rfl, rfl, fun h => CombinePath.noConfusion h⟩

/-- Witness for C9 at a concrete one-row source with a non-100GE interface. -/
theorem c9_filter_empty_none_witness :
    load_bras_data [⟨"Mandalay, BRAS01", "10GE1/0/1", "45,000", "2025-04-15"⟩] = none ∧
    combine_data (load_bras_data
        [⟨"Mandalay, BRAS01", "10GE1/0/1", "45,000", "2025-04-15"⟩]) [] =
      ⟨[], CombinePath.handler⟩ := by
  have h := c9_filter_empty_none
    [⟨"Mandalay, BRAS01", "10GE1/0/1", "45,000", "2025-04-15"⟩] [] (by decide)
  exact ⟨h.1, h.2.1⟩

/-! Helpers about the column conversion stage and the extracted device tags. -/

theorem brasParse_eq_none {l : List PRow} {p : PRow} (hp : p ∈ l)
    (hfail : parseFloatQ (String.mk (p.rate.data.filter fun c => ¬ c = ',')) = none ∨
      parseIsoDate p.endTime = none) :
    brasParse l = none := by
  induction l with
  | nil => cases hp
  | cons x t ih =>
    rcases List.mem_cons.mp hp with h | h
    · subst h
      unfold brasParse
      cases hrest : brasParse t with
      | none => rfl
      | some q =>
        rcases hfail with hf | hf
        · rw [hf]
        · cases hq : parseFloatQ (String.mk (p.rate.data.filter fun c => ¬ c = ',')) with
          | none => rfl
          | some v => rw [hf]
    · unfold brasParse
      rw [ih h]

theorem brasParse_locs : ∀ {l : List PRow} {q : List QRow}, brasParse l = some q →
    q.map (fun r => r.loc) = l.map (fun p => p.loc) := by
  intro l
  induction l with
  | nil =>
    intro q h
    simp only [brasParse, Option.some.injEq] at h
    subst h
    rfl
  | cons x t ih =>
    intro q h
    unfold brasParse at h
    cases h1 : brasParse t with
    | none => rw [h1] at h; cases h
    | some rest =>
      rw [h1] at h
      cases h2 : parseFloatQ (String.mk (x.rate.data.filter fun c => ¬ c = ',')) with
      | none => rw [h2] at h; cases h
      | some v =>
        rw [h2] at h
        cases h3 : parseIsoDate x.endTime with
        | none => rw [h3] at h; cases h
        | some d =>
          rw [h3] at h
          injection h with h
          subst h
          simp [ih h1]

/-- C3 fails on the code for the BRAS loader: a source with one valid row and
one row whose peak rate does not parse yields an empty table (the whole load
is aborted by the conversion error), although the valid row alone loads fine. -/
theorem c3_counterexample :
    load_bras_data [⟨"Mandalay, BRAS01", "100GE1/0/1", "45,000", "2025-04-15"⟩,
                    ⟨"Yangon, BRAS02", "100GE1/0/2", "xx", "2025-04-15"⟩] = some [] ∧
    load_bras_data [⟨"Mandalay, BRAS01", "100GE1/0/1", "45,000", "2025-04-15"⟩] =
      some [⟨⟨2025, 4, 1⟩, "Apr 2025", "Mandalay_BRAS01", 45000, 100000, 45⟩] := by
  decide

/-- C3 amended: parse failures are row-scoped in the AAA loader only - a row
whose month does not parse is dropped and every other row is kept - while in
the BRAS loader a failing peak-rate or end-time cell aborts the whole load,
which then returns an empty table. -/
theorem c3_amended :
    (∀ (xs ys : List AaaRaw) (bad : AaaRaw),
        parse_date (DateInput.s (String.mk (replaceAprl bad.monthYear.data))) = none →
        load_aaa_data (xs ++ bad :: ys) = load_aaa_data (xs ++ ys)) ∧
    (∀ (input : List BrasRaw) (p : PRow), p ∈ brasStage1 input →
        (parseFloatQ (String.mk (p.rate.data.filter fun c => ¬ c = ',')) = none ∨
          parseIsoDate p.endTime = none) →
        load_bras_data input = some []) := by
  constructor
  · intro xs ys bad hbad
    unfold load_aaa_data
    congr 1
    simp only [List.filterMap_append, List.filterMap_cons, hbad]
  · intro input p hp hfail
    have hne : brasStage1 input ≠ [] := List.ne_nil_of_mem hp
    have h1 : brasParse (brasStage1 input) = none := brasParse_eq_none hp hfail
    simp [load_bras_data, hne, h1]

/-- Witness for C3 amended at concrete inputs. -/
theorem c3_amended_witness :
    load_aaa_data [⟨"Apr-25", "MDY_Region", "12000"⟩, ⟨"junk", "NPT_Region", "5"⟩] =
      load_aaa_data [⟨"Apr-25", "MDY_Region", "12000"⟩] ∧
    load_bras_data [⟨"Mandalay, BRAS01", "100GE1/0/1", "45,000", "2025-04-15"⟩,
                    ⟨"Yangon, BRAS02", "100GE1/0/2", "xx", "2025-04-15"⟩] = some [] := by
  constructor
  · exact c3_amended.1 [⟨"Apr-25", "MDY_Region", "12000"⟩] []
      ⟨"junk", "NPT_Region", "5"⟩ (by decide)
  · exact c3_amended.2
      [⟨"Mandalay, BRAS01", "100GE1/0/1", "45,000", "2025-04-15"⟩,
       ⟨"Yangon, BRAS02", "100GE1/0/2", "xx", "2025-04-15"⟩]
      ⟨some ("Yangon_BRAS02"), "xx", "2025-04-15"⟩ (by decide) (Or.inl (by decide))

theorem takeWhile_all_digits (l : List Char) :
    (l.takeWhile Char.isDigit).all Char.isDigit = true := by
  rw [List.all_eq_true]
  intro c hc
  exact List.mem_takeWhile_imp hc

theorem extractBrasList_shape (cs : List Char) : ∀ d : List Char,
    extractBrasList cs = some d →
    ∃ ds, ds ≠ [] ∧ ds.all Char.isDigit = true ∧ d = 'B' :: 'R' :: 'A' :: 'S' :: ds := by
  induction cs with
  | nil => intro d h; cases h
  | cons c rest ih =>
    intro d h
    unfold extractBrasList at h
    by_cases hc : c = 'B'
    · rw [if_pos hc] at h
      split at h
      · rename_i r2
        split at h
        · exact ih d h
        · rename_i hds
          injection h with h
          exact ⟨List.takeWhile Char.isDigit r2, hds, takeWhile_all_digits r2, h.symm⟩
      · exact ih d h
    · rw [if_neg hc] at h
      exact ih d h

theorem isPrefixOf_append_self (l z : List Char) : l.isPrefixOf (l ++ z) = true := by
  rw [List.isPrefixOf_iff_prefix]
  exact List.prefix_append l z

theorem strEndsWith_self_append (x : String) (d : List Char) :
    strEndsWith (x ++ String.mk d) (String.mk d) = true := by
  have hdata : (x ++ String.mk d).data = x.data ++ d := rfl
  unfold strEndsWith
  rw [hdata, List.reverse_append]
  exact isPrefixOf_append_self _ _

theorem mem_brasKeys {l : List QRow} {k : Date × String} (hk : k ∈ brasKeys l) :
    ∃ q ∈ l, q.loc = some k.2 := by
  unfold brasKeys at hk
  rw [List.Perm.mem_iff (List.perm_insertionSort keyLe _)] at hk
  rw [List.mem_dedup] at hk
  rcases List.mem_filterMap.mp hk with ⟨q, hq, hmap⟩
  cases hloc : q.loc with
  | none => rw [hloc] at hmap; cases hmap
  | some s =>
    rw [hloc] at hmap
    simp only [Option.map_some', Option.some.injEq] at hmap
    refine ⟨q, hq, ?_⟩
    rw [hloc, ← hmap]

theorem brasStage1_loc {input : List BrasRaw} {p : PRow} (hp : p ∈ brasStage1 input) :
    ∃ r ∈ input, p.loc = (extractBrasList r.neLocation.data).map
      (fun d => firstSeg ',' r.neLocation ++ "_" ++ String.mk d) := by
  unfold brasStage1 at hp
  rcases List.mem_map.mp hp with ⟨pair, hpair, hppair⟩
  rcases List.mem_filter.mp hpair with ⟨hmem, _⟩
  rcases List.mem_map.mp hmem with ⟨r, hr, hrpair⟩
  subst hrpair
  subst hppair
  exact ⟨r, hr, rfl⟩

/-- C10: every location key in the BRAS loader's output ends in a device tag
of shape BRAS followed by one or more digits, and the group-by step
aggregates only rows whose location key is present, so rows without an
extractable tag (whose key is missing) contribute to no output row. -/
theorem c10_keys_tagged :
    (∀ (input : List BrasRaw) (out : List BrasRow), load_bras_data input = some out →
      ∀ o ∈ out, ∃ ds, ds ≠ [] ∧ ds.all Char.isDigit = true ∧
        strEndsWith o.location (String.mk ('B' :: 'R' :: 'A' :: 'S' :: ds)) = true) ∧
    (∀ l : List QRow, brasAggregate l = brasAggregate (l.filter fun q => q.loc.isSome)) := by
  constructor
  · intro input out hload o ho
    unfold load_bras_data at hload
    by_cases hstage : brasStage1 input = []
    · simp [hstage] at hload
    · rw [if_neg hstage] at hload
      cases hparse : brasParse (brasStage1 input) with
      | none =>
        rw [hparse] at hload
        injection hload with hload
        subst hload
        cases ho
      | some q =>
        rw [hparse] at hload
        injection hload with hload
        subst hload
        rcases List.mem_map.mp ho with ⟨k, hk, hko⟩
        rcases mem_brasKeys hk with ⟨qr, hqr, hqloc⟩
        have hql : qr.loc ∈ q.map (fun r => r.loc) := List.mem_map_of_mem _ hqr
        rw [brasParse_locs hparse] at hql
        rcases List.mem_map.mp hql with ⟨p, hpmem, hploc⟩
        rcases brasStage1_loc hpmem with ⟨r, _, hrloc⟩
        rw [hrloc] at hploc
        rw [← hploc] at hqloc
        cases hex : extractBrasList r.neLocation.data with
        | none => rw [hex] at hqloc; cases hqloc
        | some d =>
          rw [hex] at hqloc
          simp only [Option.map_some', Option.some.injEq] at hqloc
          rcases extractBrasList_shape _ d hex with ⟨ds, hne, hdig, hshape⟩
          refine ⟨ds, hne, hdig, ?_⟩
          have holoc : o.location = k.2 := by rw [← hko]
          rw [holoc, ← hqloc, hshape]
          exact strEndsWith_self_append (firstSeg ',' r.neLocation ++ "_") _
  · intro l
    unfold brasAggregate
    have hkeys : brasKeys (l.filter fun q => q.loc.isSome) = brasKeys l := by
      unfold brasKeys
      congr 1
      congr 1
      induction l with
      | nil => rfl
      | cons x t ih =>
        cases hloc : x.loc with
        | none => simp [List.filter_cons, List.filterMap_cons, hloc, ih]
        | some s => simp [List.filter_cons, List.filterMap_cons, hloc, ih]
    have hrates : ∀ k, groupRates (l.filter fun q => q.loc.isSome) k = groupRates l k := by
      intro k
      unfold groupRates
      congr 1
      rw [List.filter_filter]
      apply List.filter_congr
      intro q hq
      cases hP : decide (q.loc = some k.2 ∧ monthOf q.date = k.1) with
      | false => simp [hP]
      | true =>
        simp only [hP, Bool.and_true, Bool.true_and]
        rcases of_decide_eq_true hP with ⟨hq1, _⟩
        simp [hq1]
    rw [hkeys]
    apply List.map_congr_left
    intro k hk
    rw [hrates k]

/-- Witness for C10 at the scenario input. -/
theorem c10_keys_tagged_witness :
    ∃ ds, ds ≠ [] ∧ ds.all Char.isDigit = true ∧
      strEndsWith ("Mandalay_BRAS01") (String.mk ('B' :: 'R' :: 'A' :: 'S' :: ds)) = true := by
  exact c10_keys_tagged.1 scenarioBras
    [⟨⟨2025, 4, 1⟩, "Apr 2025", "Mandalay_BRAS01", 45000, 100000, 45⟩] (by decide)
    ⟨⟨2025, 4, 1⟩, "Apr 2025", "Mandalay_BRAS01", 45000, 100000, 45⟩ (by decide)

/-! Characterization of the rows the outer merge can produce. -/

theorem mem_mergeFill {bras : List BrasRow} {aaa : List AaaRow} {u : URow}
    (hu : u ∈ mergeFill bras aaa) :
    (∃ b ∈ bras, ∃ a ∈ aaa, aKey a = bKey b ∧
        u = ⟨b.month, b.monthName, b.location, b.rate, b.capacity, b.utilPct, a.users.getD 0⟩) ∨
    (∃ b ∈ bras, (∀ a ∈ aaa, aKey a ≠ bKey b) ∧
        u = ⟨b.month, b.monthName, b.location, b.rate, b.capacity, b.utilPct, 0⟩) ∨
    (∃ a ∈ aaa, (∀ b ∈ bras, bKey b ≠ aKey a) ∧
        u = ⟨a.month, a.monthName, a.location, 0, 100000, 0, a.users.getD 0⟩) := by
  unfold mergeFill at hu
  rcases List.mem_append.mp hu with h | h
  · rcases List.mem_flatten.mp h with ⟨sub, hsub, humem⟩
    rcases List.mem_map.mp hsub with ⟨b, hb, hsubeq⟩
    subst hsubeq
    unfold mergeRowsFor at humem
    cases hf : aaa.filter (fun a => decide (aKey a = bKey b)) with
    | nil =>
      rw [hf] at humem
      have hueq : u = ⟨b.month, b.monthName, b.location, b.rate, b.capacity, b.utilPct, 0⟩ :=
        List.mem_singleton.mp humem
      refine Or.inr (Or.inl ⟨b, hb, ?_, hueq⟩)
      intro a ha heq
      have := List.filter_eq_nil_iff.mp hf a ha
      exact this (decide_eq_true heq)
    | cons a0 ms =>
      rw [hf] at humem
      rcases List.mem_map.mp humem with ⟨a, hams, haeq⟩
      have hafilter : a ∈ aaa.filter (fun a => decide (aKey a = bKey b)) := hf.symm ▸ hams
      rcases List.mem_filter.mp hafilter with ⟨haaa, hadec⟩
      exact Or.inl ⟨b, hb, a, haaa, of_decide_eq_true hadec, haeq.symm⟩
  · rcases List.mem_map.mp h with ⟨a, hafil, haeq⟩
    rcases List.mem_filter.mp hafil with ⟨haaa, hall⟩
    refine Or.inr (Or.inr ⟨a, haaa, ?_, haeq.symm⟩)
    intro b hb
    exact of_decide_eq_true (List.all_eq_true.mp hall b hb)

theorem combine_rows_eq {bras : List BrasRow} {aaa : List AaaRow}
    (hb : bras ≠ []) (ha : aaa ≠ []) :
    (combine_data (some bras) aaa).rows = List.insertionSort rowLe (mergeFill bras aaa) := by
  show (if bras = [] ∨ aaa = [] then (⟨[], CombinePath.emptyInput⟩ : CombineOut)
      else ⟨List.insertionSort rowLe (mergeFill bras aaa), CombinePath.merged⟩).rows =
    List.insertionSort rowLe (mergeFill bras aaa)
  rw [if_neg (by simp [hb, ha])]

/-- C4: in the Unified Record built from nonempty loader outputs, a
(month, location) key present only in the AAA input yields a row with the
standing capacity default 100000, peak rate 0 and utilization 0 (and the AAA
user count), and a row whose key appears in no AAA input row has user count 0. -/
theorem c4_outer_join_fill (bras : List BrasRow) (aaa : List AaaRow)
    (hb : bras ≠ []) (ha : aaa ≠ []) :
    (∀ a ∈ aaa, (∀ b ∈ bras, (b.month, b.location) ≠ (a.month, a.location)) →
      ∃ u ∈ (combine_data (some bras) aaa).rows,
        u.month = a.month ∧ u.location = a.location ∧ u.capacity = 100000 ∧
        u.rate = 0 ∧ u.utilPct = 0 ∧ u.users = a.users.getD 0) ∧
    (∀ u ∈ (combine_data (some bras) aaa).rows,
      (∀ b ∈ bras, (b.month, b.location) ≠ (u.month, u.location)) →
      u.capacity = 100000 ∧ u.rate = 0 ∧ u.utilPct = 0) ∧
    (∀ u ∈ (combine_data (some bras) aaa).rows,
      (∀ a ∈ aaa, (a.month, a.location) ≠ (u.month, u.location)) → u.users = 0) := by
  have hmem : ∀ u : URow, u ∈ (combine_data (some bras) aaa).rows ↔ u ∈ mergeFill bras aaa := by
    intro u
    rw [combine_rows_eq hb ha]
    exact (List.perm_insertionSort rowLe _).mem_iff
  refine ⟨?_, ?_, ?_⟩
  · intro a haaa hnomatch
    have htriple : ∀ b ∈ bras, decide (bKey b ≠ aKey a) = true := by
      intro b hbb
      apply decide_eq_true
      intro heq
      have hcomp : b.month = a.month ∧ b.monthName = a.monthName ∧ b.location = a.location := by
        simpa [bKey, aKey, Prod.ext_iff] using heq
      exact hnomatch b hbb (by rw [hcomp.1, hcomp.2.2])
    have hfil : a ∈ aaa.filter (fun x => bras.all fun b => decide (bKey b ≠ aKey x)) := by
      rw [List.mem_filter]
      exact ⟨haaa, List.all_eq_true.mpr htriple⟩
    have humem : (⟨a.month, a.monthName, a.location, 0, 100000, 0, a.users.getD 0⟩ : URow)
        ∈ mergeFill bras aaa := by
      unfold mergeFill
      exact List.mem_append.mpr (Or.inr (List.mem_map_of_mem _ hfil))
    exact ⟨_, (hmem _).mpr humem, rfl, rfl, rfl, rfl, rfl, rfl⟩
  · intro u humem hnomatch
    rcases mem_mergeFill ((hmem u).mp humem) with h | h | h
    · rcases h with ⟨b, hbb, a, haa, hkey, hueq⟩
      exact absurd (by rw [hueq] : (b.month, b.location) = (u.month, u.location)) (hnomatch b hbb)
    · rcases h with ⟨b, hbb, hnoa, hueq⟩
      exact absurd (by rw [hueq] : (b.month, b.location) = (u.month, u.location)) (hnomatch b hbb)
    · rcases h with ⟨a, haa, hnob, hueq⟩
      subst hueq
      exact ⟨rfl, rfl, rfl⟩
  · intro u humem hnomatch
    rcases mem_mergeFill ((hmem u).mp humem) with h | h | h
    · rcases h with ⟨b, hbb, a, haa, hkey, hueq⟩
      exfalso
      have hcomp : a.month = b.month ∧ a.monthName = b.monthName ∧ a.location = b.location := by
        simpa [bKey, aKey, Prod.ext_iff] using hkey
      apply hnomatch a haa
      rw [hueq]
      exact by rw [hcomp.1, hcomp.2.2]
    · rcases h with ⟨b, hbb, hnoa, hueq⟩
      subst hueq
      rfl
    · rcases h with ⟨a, haa, hnob, hueq⟩
      exact absurd (by rw [hueq] : (a.month, a.location) = (u.month, u.location)) (hnomatch a haa)

/-- Witness for C4 at concrete one-row inputs with distinct keys. -/
theorem c4_outer_join_fill_witness :
    ∃ u ∈ (combine_data
        (some [⟨⟨2025, 4, 1⟩, "Apr 2025", "Mandalay_BRAS01", 45000, 100000, 45⟩])
        [⟨⟨2025, 4, 1⟩, "Apr 2025", "MDY_AAA", some 12000⟩]).rows,
      u.month = ⟨2025, 4, 1⟩ ∧ u.location = "MDY_AAA" ∧ u.capacity = 100000 ∧
      u.rate = 0 ∧ u.utilPct = 0 ∧ u.users = (some (12000 : ℚ)).getD 0 := by
  exact (c4_outer_join_fill
      [⟨⟨2025, 4, 1⟩, "Apr 2025", "Mandalay_BRAS01", 45000, 100000, 45⟩]
      [⟨⟨2025, 4, 1⟩, "Apr 2025", "MDY_AAA", some 12000⟩]
      (by decide) (by decide)).1
    ⟨⟨2025, 4, 1⟩, "Apr 2025", "MDY_AAA", some 12000⟩ (by decide) (by decide)

/-! Key uniqueness of the group-by output and of the merged table. -/

theorem brasKeys_nodup (l : List QRow) : (brasKeys l).Nodup := by
  unfold brasKeys
  exact ((List.perm_insertionSort keyLe _).nodup_iff).mpr (List.nodup_dedup _)

theorem brasAggregate_pairs (l : List QRow) :
    (brasAggregate l).map (fun o => (o.month, o.location)) = brasKeys l := by
  unfold brasAggregate
  rw [List.map_map]
  show (brasKeys l).map (fun k => k) = brasKeys l
  simp

theorem mergeRowsFor_pairs (aaa : List AaaRow)
    (hauniq : (aaa.map fun a => (a.month, a.location)).Nodup) (b : BrasRow) :
    (mergeRowsFor aaa b).map (fun u => (u.month, u.location)) = [(b.month, b.location)] := by
  unfold mergeRowsFor
  cases hf : aaa.filter (fun a => decide (aKey a = bKey b)) with
  | nil => rfl
  | cons a0 ms =>
    have hsub : List.Sublist (a0 :: ms) aaa := hf ▸ List.filter_sublist aaa
    have hpairs : ((a0 :: ms).map fun a => (a.month, a.location)).Nodup :=
      hauniq.sublist (hsub.map _)
    cases ms with
    | nil => rfl
    | cons a1 ms2 =>
      exfalso
      have hconst : ∀ a ∈ a0 :: a1 :: ms2, (a.month, a.location) = (b.month, b.location) := by
        intro a ha
        have hmem : a ∈ aaa.filter (fun a => decide (aKey a = bKey b)) := hf.symm ▸ ha
        rcases List.mem_filter.mp hmem with ⟨_, hdec⟩
        have hcomp : a.month = b.month ∧ a.monthName = b.monthName ∧
            a.location = b.location := by
          simpa [aKey, bKey, Prod.ext_iff] using of_decide_eq_true hdec
        rw [hcomp.1, hcomp.2.2]
      rcases List.nodup_cons.mp hpairs with ⟨hnotin, _⟩
      apply hnotin
      show (a0.month, a0.location) ∈ List.map (fun a => (a.month, a.location)) (a1 :: ms2)
      rw [hconst a0 (by simp), ← hconst a1 (by simp)]
      simp

theorem mergeFill_pair_decomp (bras : List BrasRow) (aaa : List AaaRow)
    (hauniq : (aaa.map fun a => (a.month, a.location)).Nodup) :
    (mergeFill bras aaa).map (fun u => (u.month, u.location)) =
      bras.map (fun b => (b.month, b.location)) ++
      ((aaa.filter fun a => bras.all fun b => decide (bKey b ≠ aKey a)).map
        fun a => (a.month, a.location)) := by
  unfold mergeFill
  rw [List.map_append]
  congr 1
  · induction bras with
    | nil => rfl
    | cons b bs ih =>
      simp only [List.map_cons, List.flatten_cons, List.map_append]
      rw [mergeRowsFor_pairs aaa hauniq b, ih]
      rfl
  · rw [List.map_map]
    rfl

/-- C5 fails as stated: the AAA loader does not deduplicate, so two identical
AAA source rows for the same month and location produce two Unified Record
rows with the same (month, location) key. -/
theorem c5_counterexample :
    ((combine_data (load_bras_data scenarioBras)
        (load_aaa_data [⟨"Apr-25", "MDY_Region", "12000"⟩,
                        ⟨"Apr-25", "MDY_Region", "12000"⟩])).rows.filter
      fun u => decide (u.month = ⟨2025, 4, 1⟩ ∧ u.location = ("MDY_AAA"))).length = 2 := by
  decide

/-- C5 amended: the BRAS monthly table has at most one row per
(month, location) key and its peak rate is the maximum over the qualifying
readings of that month and location; the Unified Record has at most one row
per (month, location) provided each merge input has unique keys and
consistent month labels - which the BRAS group-by guarantees but the AAA
loader, which never deduplicates, does not. -/
theorem c5_amended :
    (∀ l : List QRow,
      ((brasAggregate l).map fun o => (o.month, o.location)).Nodup ∧
      ∀ o ∈ brasAggregate l, o.rate = maxOfList (groupRates l (o.month, o.location))) ∧
    (∀ (bras : List BrasRow) (aaa : List AaaRow),
      (bras.map fun b => (b.month, b.location)).Nodup →
      (aaa.map fun a => (a.month, a.location)).Nodup →
      (∀ b ∈ bras, b.monthName = monthLabel b.month) →
      (∀ a ∈ aaa, a.monthName = monthLabel a.month) →
      (((combine_data (some bras) aaa).rows).map fun u => (u.month, u.location)).Nodup) := by
  constructor
  · intro l
    constructor
    · rw [brasAggregate_pairs]
      exact brasKeys_nodup l
    · intro o ho
      rcases List.mem_map.mp ho with ⟨k, hk, hko⟩
      subst hko
      rfl
  · intro bras aaa hbuniq hauniq hblab halab
    by_cases hdeg : bras = [] ∨ aaa = []
    · have : (combine_data (some bras) aaa).rows = [] := by
        show (if bras = [] ∨ aaa = [] then (⟨[], CombinePath.emptyInput⟩ : CombineOut)
            else ⟨List.insertionSort rowLe (mergeFill bras aaa), CombinePath.merged⟩).rows = []
        rw [if_pos hdeg]
      rw [this]
      exact List.nodup_nil
    · push_neg at hdeg
      have hrows := combine_rows_eq hdeg.1 hdeg.2
      rw [hrows]
      have hperm : List.Perm
          ((List.insertionSort rowLe (mergeFill bras aaa)).map fun u => (u.month, u.location))
          ((mergeFill bras aaa).map fun u => (u.month, u.location)) :=
        (List.perm_insertionSort rowLe _).map _
      rw [hperm.nodup_iff]
      rw [mergeFill_pair_decomp bras aaa hauniq]
      rw [List.nodup_append]
      refine ⟨hbuniq, ?_, ?_⟩
      · exact hauniq.sublist ((List.filter_sublist aaa).map _)
      · intro x hxb hxa
        rcases List.mem_map.mp hxb with ⟨b, hb, hbx⟩
        rcases List.mem_map.mp hxa with ⟨a, hafil, hax⟩
        rcases List.mem_filter.mp hafil with ⟨haaa, hall⟩
        have hne : bKey b ≠ aKey a := of_decide_eq_true (List.all_eq_true.mp hall b hb)
        apply hne
        have hpair : (b.month, b.location) = (a.month, a.location) := by rw [hbx, hax]
        have h1 : b.month = a.month := congrArg Prod.fst hpair
        have h2 : b.location = a.location := congrArg Prod.snd hpair
        have h3 : b.monthName = a.monthName := by
          rw [hblab b hb, halab a haaa, h1]
        unfold bKey aKey
        rw [h1, h2, h3]

/-- Witness for C5 amended at concrete inputs. -/
theorem c5_amended_witness :
    (((combine_data (some [⟨⟨2025, 4, 1⟩, "Apr 2025", "Mandalay_BRAS01", 45000, 100000, 45⟩])
        [⟨⟨2025, 4, 1⟩, "Apr 2025", "MDY_AAA", some 12000⟩]).rows).map
      fun u => (u.month, u.location)).Nodup := by
  exact c5_amended.2
    [⟨⟨2025, 4, 1⟩, "Apr 2025", "Mandalay_BRAS01", 45000, 100000, 45⟩]
    [⟨⟨2025, 4, 1⟩, "Apr 2025", "MDY_AAA", some 12000⟩]
    (by decide) (by decide) (by decide) (by decide)

/-! String-suffix facts about the device names, and the chart scaling rule. -/

theorem isPrefixOf_ne_head (a b : Char) (as bs : List Char) (h : ¬ a = b) :
    (a :: as).isPrefixOf (b :: bs) = false := by
  simp [List.isPrefixOf, h]

theorem strEndsWith_bras01 (r : String) :
    strEndsWith (r ++ ("_BRAS01")) ("BRAS02") = false := by
  unfold strEndsWith
  have hdata : (r ++ ("_BRAS01" : String)).data = r.data ++ ("_BRAS01" : String).data := rfl
  rw [hdata, List.reverse_append]
  have h7 : ("_BRAS01" : String).data.reverse = ['1', '0', 'S', 'A', 'R', 'B', '_'] := by decide
  have h6 : ("BRAS02" : String).data.reverse = ['2', '0', 'S', 'A', 'R', 'B'] := by decide
  rw [h6, h7]
  show (['2', '0', 'S', 'A', 'R', 'B']).isPrefixOf
      ('1' :: (['0', 'S', 'A', 'R', 'B', '_'] ++ r.data.reverse)) = false
  exact isPrefixOf_ne_head _ _ _ _ (by decide)

theorem strEndsWith_bras02 (r : String) :
    strEndsWith (r ++ ("_BRAS02")) ("BRAS02") = true := by
  unfold strEndsWith
  have hdata : (r ++ ("_BRAS02" : String)).data = r.data ++ ("_BRAS02" : String).data := rfl
  rw [hdata, List.reverse_append]
  have h7 : ("_BRAS02" : String).data.reverse = ['2', '0', 'S', 'A', 'R', 'B', '_'] := by decide
  have h6 : ("BRAS02" : String).data.reverse = ['2', '0', 'S', 'A', 'R', 'B'] := by decide
  rw [h6, h7]
  show (['2', '0', 'S', 'A', 'R', 'B']).isPrefixOf
      (['2', '0', 'S', 'A', 'R', 'B'] ++ ('_' :: r.data.reverse)) = true
  exact isPrefixOf_append_self _ _

theorem append_bras_ne (r : String) : r ++ ("_BRAS01") ≠ r ++ ("_BRAS02") := by
  intro h
  have hdata : r.data ++ ("_BRAS01" : String).data = r.data ++ ("_BRAS02" : String).data :=
    congrArg String.data h
  exact absurd (List.append_cancel_left hdata) (by decide)

theorem deviceSeries_some {data : List URow} {region device : String} {s : ChartSeries}
    (h : deviceSeries data region device = some s) :
    s.label = device ++ " Utilization" ++
      (if decide (region = "MDY") && strEndsWith device ("BRAS02") then " (×10)" else "") ∧
    s.points = (slotRows data region device).map
      (fun r => (r.monthName, r.utilPct *
        (if decide (region = "MDY") && strEndsWith device ("BRAS02") then 10 else 1))) := by
  unfold deviceSeries at h
  by_cases hdd : slotRows data region device = []
  · rw [if_pos hdd] at h
    cases h
  · rw [if_neg hdd] at h
    injection h with h
    subst h
    exact ⟨rfl, rfl⟩

/-- C6: every line series the chart builder produces for a region comes from
one of the two device slots; its values are 10 times the stored utilization
percentage with a (×10) disclosure in the label exactly when the region is
MDY and the slot is BRAS02, and the stored utilization unmodified for every
other region and device combination. -/
theorem c6_scaling (data : List URow) (region : String) (s : ChartSeries)
    (hs : s ∈ (create_combined_chart data region).lines) :
    (region = "MDY" ∧ s.label = ("MDY_BRAS02 Utilization (×10)") ∧
      listContains s.label.data ("(×10)".data) = true ∧
      s.points = (slotRows data region (region ++ "_BRAS02")).map
        fun r => (r.monthName, r.utilPct * 10)) ∨
    (∃ device, (device = region ++ "_BRAS01" ∨ device = region ++ "_BRAS02") ∧
      ¬ (region = "MDY" ∧ device = region ++ "_BRAS02") ∧
      s.points = (slotRows data region device).map fun r => (r.monthName, r.utilPct)) := by
  have hs2 : deviceSeries data region (region ++ "_BRAS01") = some s ∨
      deviceSeries data region (region ++ "_BRAS02") = some s := by
    rcases List.mem_filterMap.mp hs with ⟨o, ho, hid⟩
    rcases List.mem_cons.mp ho with h1 | h1
    · left
      rw [← h1]
      exact hid
    · rcases List.mem_cons.mp h1 with h2 | h2
      · right
        rw [← h2]
        exact hid
      · cases h2
  rcases hs2 with h | h
  · rcases deviceSeries_some h with ⟨hlab, hpts⟩
    right
    refine ⟨region ++ "_BRAS01", Or.inl rfl, ?_, ?_⟩
    · rintro ⟨hmdy, heq⟩
      exact append_bras_ne region heq
    · rw [hpts, strEndsWith_bras01 region]
      simp
  · by_cases hmdy : region = "MDY"
    · left
      rcases deviceSeries_some h with ⟨hlab, hpts⟩
      subst hmdy
      refine ⟨rfl, ?_, ?_, ?_⟩
      · rw [hlab]
        decide
      · rw [hlab]
        decide
      · rw [hpts]
        have hc : (decide (("MDY" : String) = "MDY") &&
            strEndsWith ("MDY" ++ "_BRAS02") ("BRAS02")) = true := by decide
        rw [hc]
        simp
    · right
      rcases deviceSeries_some h with ⟨hlab, hpts⟩
      refine ⟨region ++ "_BRAS02", Or.inr rfl, fun hc => hmdy hc.1, ?_⟩
      rw [hpts, decide_eq_false hmdy]
      simp

/-- Witness for C6 at a concrete MDY_BRAS02 data row. -/
theorem c6_scaling_witness :
    (("MDY" : String) = "MDY" ∧
      (⟨"MDY_BRAS02 Utilization (×10)", [("Apr 2025", (450 : ℚ))]⟩ : ChartSeries).label =
        ("MDY_BRAS02 Utilization (×10)") ∧
      listContains
        (⟨"MDY_BRAS02 Utilization (×10)", [("Apr 2025", (450 : ℚ))]⟩ : ChartSeries).label.data
        ("(×10)".data) = true ∧
      (⟨"MDY_BRAS02 Utilization (×10)", [("Apr 2025", (450 : ℚ))]⟩ : ChartSeries).points =
        (slotRows [⟨⟨2025, 4, 1⟩, "Apr 2025", "MDY_BRAS02", 45000, 100000, 45, 0⟩] ("MDY")
          ("MDY" ++ "_BRAS02")).map fun r => (r.monthName, r.utilPct * 10)) ∨
    (∃ device, (device = "MDY" ++ "_BRAS01" ∨ device = "MDY" ++ "_BRAS02") ∧
      ¬ (("MDY" : String) = "MDY" ∧ device = "MDY" ++ "_BRAS02") ∧
      (⟨"MDY_BRAS02 Utilization (×10)", [("Apr 2025", (450 : ℚ))]⟩ : ChartSeries).points =
        (slotRows [⟨⟨2025, 4, 1⟩, "Apr 2025", "MDY_BRAS02", 45000, 100000, 45, 0⟩] ("MDY")
          device).map fun r => (r.monthName, r.utilPct)) :=
  c6_scaling [⟨⟨2025, 4, 1⟩, "Apr 2025", "MDY_BRAS02", 45000, 100000, 45, 0⟩] ("MDY")
    ⟨"MDY_BRAS02 Utilization (×10)", [("Apr 2025", (450 : ℚ))]⟩ (by decide)

/-! Properties of the idxmax scan and the KPI extraction. -/

theorem firstArgmax_mem (m : URow → ℚ) : ∀ (xs : List URow) (r : URow),
    firstArgmax m r xs ∈ r :: xs
  | [], r => by
    unfold firstArgmax
    exact List.mem_cons_self r []
  | x :: t, r => by
    unfold firstArgmax
    by_cases h : m r < m x
    · rw [if_pos h]
      exact List.mem_cons_of_mem r (firstArgmax_mem m t x)
    · rw [if_neg h]
      rcases List.mem_cons.mp (firstArgmax_mem m t r) with h1 | h1
      · rw [h1]
        exact List.mem_cons_self r (x :: t)
      · exact List.mem_cons_of_mem r (List.mem_cons_of_mem x h1)

theorem firstArgmax_ge (m : URow → ℚ) : ∀ (xs : List URow) (r y : URow),
    y ∈ r :: xs → m y ≤ m (firstArgmax m r xs)
  | [], r, y, hy => by
    have hyr : y = r := List.mem_singleton.mp hy
    subst hyr
    exact le_refl _
  | x :: t, r, y, hy => by
    unfold firstArgmax
    by_cases h : m r < m x
    · rw [if_pos h]
      rcases List.mem_cons.mp hy with h1 | h1
      · subst h1
        exact le_trans (le_of_lt h) (firstArgmax_ge m t x x (List.mem_cons_self x t))
      · exact firstArgmax_ge m t x y h1
    · rw [if_neg h]
      rcases List.mem_cons.mp hy with h1 | h1
      · subst h1
        exact firstArgmax_ge m t y y (List.mem_cons_self y t)
      · rcases List.mem_cons.mp h1 with h2 | h2
        · subst h2
          exact le_trans (le_of_not_lt h) (firstArgmax_ge m t r r (List.mem_cons_self r t))
        · exact firstArgmax_ge m t r y (List.mem_cons_of_mem r h2)

theorem firstArgmax_eq_self (m : URow → ℚ) : ∀ (xs : List URow) (r : URow),
    (∀ y ∈ xs, m y ≤ m r) → firstArgmax m r xs = r
  | [], _, _ => rfl
  | x :: t, r, h => by
    unfold firstArgmax
    rw [if_neg (not_lt.mpr (h x (List.mem_cons_self x t)))]
    exact firstArgmax_eq_self m t r fun y hy => h y (List.mem_cons_of_mem x hy)

theorem firstArgmax_first (m : URow → ℚ) : ∀ (xs : List URow) (r : URow),
    (r :: xs).Pairwise rowLe → ∀ y ∈ r :: xs, m y = m (firstArgmax m r xs) →
    Date.leb (firstArgmax m r xs).month y.month = true
  | [], r, _, y, hy, _ => by
    have hyr : y = r := List.mem_singleton.mp hy
    subst hyr
    exact dateLeb_refl _
  | x :: t, r, hp, y, hy, hmy => by
    unfold firstArgmax at hmy ⊢
    by_cases h : m r < m x
    · rw [if_pos h] at hmy ⊢
      rcases List.mem_cons.mp hy with h1 | h1
      · exfalso
        subst h1
        have hxle : m x ≤ m (firstArgmax m x t) :=
          firstArgmax_ge m t x x (List.mem_cons_self x t)
        exact absurd hmy (ne_of_lt (lt_of_lt_of_le h hxle))
      · exact firstArgmax_first m t x (List.pairwise_cons.mp hp).2 y h1 hmy
    · rw [if_neg h] at hmy ⊢
      have hp2 : (r :: t).Pairwise rowLe := by
        have hsub : List.Sublist (r :: t) (r :: x :: t) :=
          List.Sublist.cons₂ r (List.sublist_cons_self x t)
        exact hp.sublist hsub
      rcases List.mem_cons.mp hy with h1 | h1
      · subst h1
        exact firstArgmax_first m t y hp2 y (List.mem_cons_self y t) hmy
      · rcases List.mem_cons.mp h1 with h2 | h2
        · subst h2
          have hresr : m (firstArgmax m r t) ≤ m r := by
            rw [← hmy]
            exact le_of_not_lt h
          have hall : ∀ z ∈ t, m z ≤ m r := fun z hz =>
            le_trans (firstArgmax_ge m t r z (List.mem_cons_of_mem r hz)) hresr
          rw [firstArgmax_eq_self m t r hall]
          exact (List.pairwise_cons.mp hp).1 y (List.mem_cons_self y t)
        · exact firstArgmax_first m t r hp2 y (List.mem_cons_of_mem r h2) hmy

theorem combine_rows_pairwise (brasq : Option (List BrasRow)) (aaa : List AaaRow) :
    (combine_data brasq aaa).rows.Pairwise rowLe := by
  cases brasq with
  | none => exact List.Pairwise.nil
  | some bras =>
    by_cases hdeg : bras = [] ∨ aaa = []
    · have hnil : (combine_data (some bras) aaa).rows = [] := by
        show (if bras = [] ∨ aaa = [] then (⟨[], CombinePath.emptyInput⟩ : CombineOut)
            else ⟨List.insertionSort rowLe (mergeFill bras aaa), CombinePath.merged⟩).rows = []
        rw [if_pos hdeg]
      rw [hnil]
      exact List.Pairwise.nil
    · push_neg at hdeg
      rw [combine_rows_eq hdeg.1 hdeg.2]
      exact List.sorted_insertionSort rowLe _

/-- What correct KPI extraction means for one sub-series: when the sub-series
is nonempty, the reported pair is the metric value and month label of a row
that attains the maximum, and no earlier month attains it. -/
def kpiOk (rows : List URow) (loc : String) (m : URow → ℚ) : Prop :=
  subSeries rows loc ≠ [] →
  ∃ r, r ∈ subSeries rows loc ∧
    kpiPeak m rows loc = some (m r, r.monthName) ∧
    (∀ y ∈ subSeries rows loc, m y ≤ m r) ∧
    (∀ y ∈ subSeries rows loc, m y = m r → Date.leb r.month y.month = true)

theorem kpiOk_of_pairwise {rows : List URow} (hp : rows.Pairwise rowLe) (loc : String)
    (m : URow → ℚ) : kpiOk rows loc m := by
  intro hne
  have hps : (subSeries rows loc).Pairwise rowLe := hp.sublist (List.filter_sublist rows)
  cases hss : subSeries rows loc with
  | nil => exact absurd hss hne
  | cons a rs =>
    have hps2 : (a :: rs).Pairwise rowLe := hss ▸ hps
    refine ⟨firstArgmax m a rs, ?_, ?_, ?_, ?_⟩
    · exact firstArgmax_mem m rs a
    · unfold kpiPeak
      rw [hss]
    · intro y hy
      exact firstArgmax_ge m rs a y hy
    · intro y hy hmy
      exact firstArgmax_first m rs a hps2 y hy hmy

/-- C8: for every sub-series of a selected region in the reconciler's output
(BRAS01 and BRAS02 by peak rate, AAA by user count), KPI extraction on a
nonempty sub-series reports the maximum metric value together with the month
label of the row attaining it whose month is no later than that of any other
row attaining it - the first such row in ascending month order, so the result
is deterministic. -/
theorem c8_kpi_first_max (brasq : Option (List BrasRow)) (aaa : List AaaRow) (region : String) :
    kpiOk (combine_data brasq aaa).rows (region ++ "_BRAS01") (fun u => u.rate) ∧
    kpiOk (combine_data brasq aaa).rows (region ++ "_BRAS02") (fun u => u.rate) ∧
    kpiOk (combine_data brasq aaa).rows (region ++ "_AAA") (fun u => u.users) :=
  ⟨kpiOk_of_pairwise (combine_rows_pairwise brasq aaa) _ _,
   kpiOk_of_pairwise (combine_rows_pairwise brasq aaa) _ _,
   kpiOk_of_pairwise (combine_rows_pairwise brasq aaa) _ _⟩

/-- Witness for C8 on the scenario output's BRAS01 sub-series. -/
theorem c8_kpi_first_max_witness :
    ∃ r, r ∈ subSeries
        (combine_data (load_bras_data scenarioBras) (load_aaa_data scenarioAaa)).rows
        ("Mandalay" ++ "_BRAS01") ∧
      kpiPeak (fun u => u.rate)
        (combine_data (load_bras_data scenarioBras) (load_aaa_data scenarioAaa)).rows
        ("Mandalay" ++ "_BRAS01") = some ((fun u : URow => u.rate) r, r.monthName) ∧
      (∀ y ∈ subSeries
          (combine_data (load_bras_data scenarioBras) (load_aaa_data scenarioAaa)).rows
          ("Mandalay" ++ "_BRAS01"), (fun u : URow => u.rate) y ≤ (fun u : URow => u.rate) r) ∧
      (∀ y ∈ subSeries
          (combine_data (load_bras_data scenarioBras) (load_aaa_data scenarioAaa)).rows
          ("Mandalay" ++ "_BRAS01"),
        (fun u : URow => u.rate) y = (fun u : URow => u.rate) r →
        Date.leb r.month y.month = true) :=
  (c8_kpi_first_max (load_bras_data scenarioBras) (load_aaa_data scenarioAaa)
    ("Mandalay")).1 (by decide)
